import Mathlib

set_option maxRecDepth 4000

/-!
Verification development for the COMPLiQ remote MCP server (Cloudflare Worker).

The worker translates MCP tool calls (inputPrompt, addFile, intermediateResults,
processingResult) into multipart POSTs against the COMPLiQ REST API, normalizes
every upstream outcome into a uniform `ToolResult`, serves an SSE session with
heartbeats and abort-triggered cleanup, dispatches JSON-RPC style requests on
the /mcp path, and exposes a /health endpoint.

The definitions below are a shallow embedding of the worker sources: the
complete tool-handler draft (the `MyMCP extends McpAgent` file) for the four
tools, and the durable-object draft for `handleSse`/`cleanupClient`,
`handleMcp`, and the worker `/health` branch.  JavaScript strings are embedded
as Lean `String`/`List Char`, JS numbers appearing here are integers, byte
sequences are `List Nat` with entries below 256, and the platform builtins the
code calls (`atob`, `JSON.parse`, `JSON.stringify`) are modelled from their
documented standard behavior where noted.
-/

/-- JSON values as produced by the platform `JSON.parse` and consumed by
`JSON.stringify`.  Numbers are restricted to integers, which covers every
number the worker itself ever puts in a JSON document. -/
inductive Json where
  | null : Json
  | bool : Bool → Json
  | num : Int → Json
  | str : String → Json
  | arr : List Json → Json
  | obj : List (String × Json) → Json

/-- Left brace character, written by code point to keep it out of string
literals. -/
def lbrace : Char := Char.ofNat 123

/-- Right brace character. -/
def rbrace : Char := Char.ofNat 125

/-- Hex digit (lower case) for the `\u00XX` escapes of `JSON.stringify`. -/
def hexDigit (n : Nat) : Char :=
  if n < 10 then Char.ofNat (48 + n) else Char.ofNat (87 + n)

/-- Escape one character the way `JSON.stringify` escapes string contents:
quote, backslash, the named control escapes, and `\u00XX` for the remaining
control characters. -/
def escapeJsonChar (c : Char) : List Char :=
  if c = '"' then ['\\', '"']
  else if c = '\\' then ['\\', '\\']
  else if c = Char.ofNat 8 then ['\\', 'b']
  else if c = Char.ofNat 9 then ['\\', 't']
  else if c = Char.ofNat 10 then ['\\', 'n']
  else if c = Char.ofNat 12 then ['\\', 'f']
  else if c = Char.ofNat 13 then ['\\', 'r']
  else if c.toNat < 32 then
    ['\\', 'u', '0', '0', hexDigit (c.toNat / 16), hexDigit (c.toNat % 16)]
  else [c]

/-- Quote a string as a JSON string literal, as `JSON.stringify` does. -/
def quoteJsonString (s : String) : String :=
  String.mk ('"' :: (s.data.map escapeJsonChar).flatten ++ ['"'])

mutual

/-- Modelled from the spec: the platform `JSON.stringify`, which the handlers
use to serialize upstream JSON bodies and JSON-RPC envelopes (minimal form, no
whitespace, object keys in insertion order). -/
def jsonStringify : Json → String
  | .null => "null"
  | .bool true => "true"
  | .bool false => "false"
  | .num n => toString n
  | .str s => quoteJsonString s
  | .arr xs => "[" ++ stringifyList xs ++ "]"
  | .obj fs => String.mk [lbrace] ++ stringifyFields fs ++ String.mk [rbrace]

/-- Comma-separated serialization of a JSON array's elements. -/
def stringifyList : List Json → String
  | [] => ""
  | [j] => jsonStringify j
  | j :: rest => jsonStringify j ++ "," ++ stringifyList rest

/-- Comma-separated serialization of a JSON object's members. -/
def stringifyFields : List (String × Json) → String
  | [] => ""
  | [(k, v)] => quoteJsonString k ++ ":" ++ jsonStringify v
  | (k, v) :: rest => quoteJsonString k ++ ":" ++ jsonStringify v ++ "," ++ stringifyFields rest

end

example : jsonStringify (.obj [("id", .str "abc")]) = "\x7b\"id\":\"abc\"\x7d" := by
  decide

/-! ### JSON parsing (the platform `JSON.parse` / `response.json()`)

Modelled from the spec: a recursive-descent parser for the JSON grammar, fuel
indexed by the input length.  Numbers are restricted to the integer subset
(a fraction or exponent makes the parse fail in this model); everything the
worker itself parses or produces is covered. -/

/-- Skip JSON insignificant whitespace. -/
def skipWs : List Char → List Char
  | c :: rest =>
    if c = ' ' ∨ c = Char.ofNat 9 ∨ c = Char.ofNat 10 ∨ c = Char.ofNat 13 then skipWs rest
    else c :: rest
  | [] => []

/-- Value of a hex digit character, if it is one. -/
def hexVal (c : Char) : Option Nat :=
  if 48 ≤ c.toNat ∧ c.toNat ≤ 57 then some (c.toNat - 48)
  else if 97 ≤ c.toNat ∧ c.toNat ≤ 102 then some (c.toNat - 87)
  else if 65 ≤ c.toNat ∧ c.toNat ≤ 70 then some (c.toNat - 55)
  else none

/-- Parse the contents of a JSON string literal after the opening quote,
returning the string and the remaining input. -/
def parseStringBody : List Char → Option (String × List Char)
  | [] => none
  | c :: rest =>
    if c = '"' then some ("", rest)
    else if c = '\\' then
      match rest with
      | [] => none
      | e :: rest2 =>
        if e = 'u' then
          match rest2 with
          | h1 :: h2 :: h3 :: h4 :: rest3 =>
            match hexVal h1, hexVal h2, hexVal h3, hexVal h4 with
            | some a, some b, some c2, some d =>
              match parseStringBody rest3 with
              | some (s, r) =>
                some (String.mk (Char.ofNat (a * 4096 + b * 256 + c2 * 16 + d) :: s.data), r)
              | none => none
            | _, _, _, _ => none
          | _ => none
        else
          let unescaped : Option Char :=
            if e = '"' then some '"'
            else if e = '\\' then some '\\'
            else if e = '/' then some '/'
            else if e = 'b' then some (Char.ofNat 8)
            else if e = 'f' then some (Char.ofNat 12)
            else if e = 'n' then some (Char.ofNat 10)
            else if e = 'r' then some (Char.ofNat 13)
            else if e = 't' then some (Char.ofNat 9)
            else none
          match unescaped with
          | some u =>
            match parseStringBody rest2 with
            | some (s, r) => some (String.mk (u :: s.data), r)
            | none => none
          | none => none
    else if c.toNat < 32 then none
    else
      match parseStringBody rest with
      | some (s, r) => some (String.mk (c :: s.data), r)
      | none => none

/-- Parse a run of decimal digits, returning the accumulated value, the number
of digits consumed, and the rest. -/
def parseDigits : List Char → Nat → Nat → Nat × Nat × List Char
  | c :: rest, acc, count =>
    if 48 ≤ c.toNat ∧ c.toNat ≤ 57 then
      parseDigits rest (acc * 10 + (c.toNat - 48)) (count + 1)
    else (acc, count, c :: rest)
  | [], acc, count => (acc, count, [])

/-- A number token must not continue with a fraction or exponent in the
integer subset this model covers. -/
def numberContinues (r : List Char) : Bool :=
  match r with
  | c :: _ => c = '.' ∨ c = 'e' ∨ c = 'E'
  | [] => false

mutual

/-- Parse one JSON value.  `fuel` dominates the input length. -/
def parseValue : Nat → List Char → Option (Json × List Char)
  | 0, _ => none
  | Nat.succ fuel, input =>
    match skipWs input with
    | [] => none
    | c :: rest =>
      if c = 'n' then
        match rest with
        | 'u' :: 'l' :: 'l' :: r => some (.null, r)
        | _ => none
      else if c = 't' then
        match rest with
        | 'r' :: 'u' :: 'e' :: r => some (.bool true, r)
        | _ => none
      else if c = 'f' then
        match rest with
        | 'a' :: 'l' :: 's' :: 'e' :: r => some (.bool false, r)
        | _ => none
      else if c = '"' then
        match parseStringBody rest with
        | some (s, r) => some (.str s, r)
        | none => none
      else if c = '-' then
        match parseDigits rest 0 0 with
        | (n, count, r) =>
          if count = 0 then none
          else if numberContinues r then none
          else some (.num (-(n : Int)), r)
      else if 48 ≤ c.toNat ∧ c.toNat ≤ 57 then
        match parseDigits (c :: rest) 0 0 with
        | (n, _, r) =>
          if numberContinues r then none else some (.num (n : Int), r)
      else if c = '[' then
        parseArray fuel (skipWs rest)
      else if c = lbrace then
        parseObject fuel (skipWs rest)
      else none

/-- Parse the elements of an array after `[` (leading whitespace consumed). -/
def parseArray : Nat → List Char → Option (Json × List Char)
  | 0, _ => none
  | Nat.succ fuel, input =>
    match input with
    | c :: rest =>
      if c = ']' then some (.arr [], rest)
      else
        match parseValue fuel input with
        | some (v, r) =>
          match parseArrayTail fuel (skipWs r) with
          | some (vs, r2) => some (.arr (v :: vs), r2)
          | none => none
        | none => none
    | [] => none

/-- Parse `, value`* `]`. -/
def parseArrayTail : Nat → List Char → Option (List Json × List Char)
  | 0, _ => none
  | Nat.succ fuel, input =>
    match input with
    | c :: rest =>
      if c = ']' then some ([], rest)
      else if c = ',' then
        match parseValue fuel rest with
        | some (v, r) =>
          match parseArrayTail fuel (skipWs r) with
          | some (vs, r2) => some (v :: vs, r2)
          | none => none
        | none => none
      else none
    | [] => none

/-- Parse the members of an object after the opening brace (leading whitespace
consumed). -/
def parseObject : Nat → List Char → Option (Json × List Char)
  | 0, _ => none
  | Nat.succ fuel, input =>
    match input with
    | c :: rest =>
      if c = rbrace then some (.obj [], rest)
      else
        match parseMember fuel input with
        | some (kv, r) =>
          match parseObjectTail fuel (skipWs r) with
          | some (kvs, r2) => some (.obj (kv :: kvs), r2)
          | none => none
        | none => none
    | [] => none

/-- Parse `, member`* and a closing brace. -/
def parseObjectTail : Nat → List Char → Option (List (String × Json) × List Char)
  | 0, _ => none
  | Nat.succ fuel, input =>
    match input with
    | c :: rest =>
      if c = rbrace then some ([], rest)
      else if c = ',' then
        match parseMember fuel (skipWs rest) with
        | some (kv, r) =>
          match parseObjectTail fuel (skipWs r) with
          | some (kvs, r2) => some (kv :: kvs, r2)
          | none => none
        | none => none
      else none
    | [] => none

/-- Parse one `"key" : value` member (leading whitespace consumed). -/
def parseMember : Nat → List Char → Option ((String × Json) × List Char)
  | 0, _ => none
  | Nat.succ fuel, input =>
    match input with
    | c :: rest =>
      if c = '"' then
        match parseStringBody rest with
        | some (k, r) =>
          match skipWs r with
          | ':' :: r2 =>
            match parseValue fuel r2 with
            | some (v, r3) => some ((k, v), r3)
            | none => none
          | _ => none
        | none => none
      else none
    | [] => none

end

/-- Modelled from the spec: the platform `JSON.parse` (integer-number subset);
`none` means the platform parser throws a `SyntaxError`. -/
def jsonParse (s : String) : Option Json :=
  match parseValue (s.length + 1) s.data with
  | some (j, rest) => if (skipWs rest).isEmpty then some j else none
  | none => none

/-! ### Base64 and the chunked base64-to-binary conversion

The handlers decode `fileBase64` with the platform `atob` builtin and then
convert the resulting binary string to byte arrays in 1024-character slices
(`for (let offset = 0; ...; offset += 1024)`), concatenated by the `Blob`
constructor.  `atob` returns a JS string whose `charCodeAt` values are the
decoded bytes; that binary string is embedded here directly as its byte
sequence (`List Nat`, entries < 256), so the per-slice `charCodeAt` loop is
the identity on each slice. -/

/-- Character of the standard base64 alphabet at a sextet value. -/
def b64Char (n : Nat) : Char :=
  if n < 26 then Char.ofNat (65 + n)
  else if n < 52 then Char.ofNat (97 + (n - 26))
  else if n < 62 then Char.ofNat (48 + (n - 52))
  else if n = 62 then '+'
  else '/'

/-- Sextet value of a base64 alphabet character, if it is one. -/
def b64Index (c : Char) : Option Nat :=
  if 65 ≤ c.toNat ∧ c.toNat ≤ 90 then some (c.toNat - 65)
  else if 97 ≤ c.toNat ∧ c.toNat ≤ 122 then some (c.toNat - 97 + 26)
  else if 48 ≤ c.toNat ∧ c.toNat ≤ 57 then some (c.toNat - 48 + 52)
  else if c = '+' then some 62
  else if c = '/' then some 63
  else none

/-- Modelled from the spec: standard base64 encoding of a byte sequence with
`=` padding.  The round-trip property of §8 quantifies over such an encoder;
the repository itself only decodes (via the platform `atob`). -/
def encodeB64 : List Nat → List Char
  | [] => []
  | [a] => [b64Char (a / 4), b64Char (a % 4 * 16), '=', '=']
  | [a, b] => [b64Char (a / 4), b64Char (a % 4 * 16 + b / 16), b64Char (b % 16 * 4), '=']
  | a :: b :: c :: rest =>
    b64Char (a / 4) :: b64Char (a % 4 * 16 + b / 16) :: b64Char (b % 16 * 4 + c / 64) ::
      b64Char (c % 64) :: encodeB64 rest

/-- Decode one base64 quad (the last quad may carry `=` padding) into one,
two or three bytes. -/
def decodeQuad (c1 c2 c3 c4 : Char) : Option (List Nat) :=
  match b64Index c1, b64Index c2 with
  | some i1, some i2 =>
    if c3 = '=' then
      if c4 = '=' then some [i1 * 4 + i2 / 16] else none
    else
      match b64Index c3 with
      | some i3 =>
        if c4 = '=' then some [i1 * 4 + i2 / 16, i2 % 16 * 16 + i3 / 4]
        else
          match b64Index c4 with
          | some i4 => some [i1 * 4 + i2 / 16, i2 % 16 * 16 + i3 / 4, i3 % 4 * 64 + i4]
          | none => none
      | none => none
  | _, _ => none

/-- Modelled from the spec: the platform `atob` builtin on padded base64 input
(quads of alphabet characters, `=` padding only in the final quad); `none`
means `atob` throws an `InvalidCharacterError`.  The result is the byte
sequence of the binary string `atob` returns. -/
def atobChars : List Char → Option (List Nat)
  | [] => some []
  | c1 :: c2 :: c3 :: c4 :: rest =>
    if rest.isEmpty then decodeQuad c1 c2 c3 c4
    else if c3 = '=' ∨ c4 = '=' then none
    else
      match decodeQuad c1 c2 c3 c4, atobChars rest with
      | some bs, some tl => some (bs ++ tl)
      | _, _ => none
  | _ => none

/-- Slice a list into segments of `n` elements (the `offset += n` loop);
fuel-indexed by the input length so that it evaluates by reduction. -/
def chunkSegments (n : Nat) : Nat → List α → List (List α)
  | 0, _ => []
  | _, [] => []
  | Nat.succ fuel, l => l.take n :: chunkSegments n fuel (l.drop n)

/-- The chunked base64-to-binary conversion of the `addFile`,
`intermediateResults` and `processingResult` handlers: `atob`, then
1024-character slices each turned into a byte array via `charCodeAt`, then
concatenation (the `Blob` over the array of `Uint8Array`s). -/
def chunkedAtob (s : List Char) : Option (List Nat) :=
  match atobChars s with
  | some byteString => some ((chunkSegments 1024 byteString.length byteString).flatten)
  | none => none

/-! ### ToolResult, multipart payloads, and the four tool handlers

Embedding of the complete tool-handler draft (`MyMCP extends McpAgent`): each
handler builds a `FormData`, POSTs it, and normalizes every outcome into the
uniform `ToolResult` envelope.  A handler is a total function of its validated
parameters and of the upstream outcome of the `fetch` call (response, or a
thrown exception); totality models the surrounding try/catch, which never
lets an exception escape. -/

/-- One entry of the MCP result `content` array (always `type: "text"` in this
worker). -/
structure ContentItem where
  type : String
  text : String
deriving DecidableEq, Repr

/-- The uniform envelope every tool handler returns:
`{ content: [{ type: "text", text: ... }] }`. -/
structure ToolResult where
  content : List ContentItem
deriving DecidableEq, Repr

/-- A `ToolResult` is well-formed when it is exactly one text item. -/
def wellFormed (r : ToolResult) : Prop :=
  ∃ s, r.content = [ContentItem.mk "text" s]

/-- One part of a multipart `FormData` body: a plain text field, or a file
part (decoded bytes, file name, content type) built from a `Blob`. -/
inductive FormPart where
  | text : String → FormPart
  | file : List Nat → String → String → FormPart
deriving DecidableEq, Repr

/-- A multipart payload: `FormData.append` calls in order. -/
abbrev Multipart := List (String × FormPart)

/-- What the awaited `fetch` call amounts to for the handler: either the
promise rejected / a later body read threw (`thrown` with the exception
message), or an HTTP response arrived with a status and a raw body. -/
inductive UpstreamOutcome where
  | thrown : String → UpstreamOutcome
  | response : Nat → String → UpstreamOutcome

/-- The catch-block result: `Error: ${error.message || "Unknown error"}`. -/
def caughtResult (msg : String) : ToolResult :=
  ToolResult.mk [ContentItem.mk "text" ("Error: " ++ (if msg = "" then "Unknown error" else msg))]

/-- Modelled from the spec: the message of the exception the platform
`response.json()` rejects with on a non-JSON body. -/
def jsonRejectMessage : String := "Unexpected token in JSON"

/-- Modelled from the spec: the message of the `InvalidCharacterError` the
platform `atob` throws on invalid base64. -/
def atobFailMessage : String := "Invalid character in base64 string"

/-- Shared post-fetch logic of all four handlers: `!response.ok` (status
outside 200–299) yields `Error: ${status} - ${bodyText}`; otherwise the body
is parsed as JSON and re-serialized; a thrown exception lands in the catch
block. -/
def postFetch (o : UpstreamOutcome) : ToolResult :=
  match o with
  | .thrown msg => caughtResult msg
  | .response status body =>
    if 200 ≤ status ∧ status ≤ 299 then
      match jsonParse body with
      | some j => ToolResult.mk [ContentItem.mk "text" (jsonStringify j)]
      | none => caughtResult jsonRejectMessage
    else
      ToolResult.mk [ContentItem.mk "text" ("Error: " ++ toString status ++ " - " ++ body)]

/-- JS truthiness of an optional string argument: absent and `""` are falsy. -/
def truthy : Option String → Bool
  | none => false
  | some s => !s.isEmpty

/-- Parameters of the `inputPrompt` tool (all fields required by the schema). -/
structure InputPromptParams where
  sessionId : String
  correlationId : String
  content : String
  userId : String
  timestamp : String
deriving DecidableEq, Repr

/-- The `FormData` the `inputPrompt` handler builds, in append order. -/
def inputPromptFormData (p : InputPromptParams) : Multipart :=
  [("sessionId", .text p.sessionId), ("correlationId", .text p.correlationId),
   ("content", .text p.content), ("userId", .text p.userId), ("timestamp", .text p.timestamp)]

/-- The `inputPrompt` handler: the built `inputPromptFormData` is POSTed to
the task-input endpoint and the outcome `o` of that call is normalized. -/
def inputPromptHandler (_p : InputPromptParams) (o : UpstreamOutcome) : ToolResult :=
  postFetch o

/-- Parameters of the `addFile` tool (`userId` optional in the schema). -/
structure AddFileParams where
  sessionId : String
  correlationId : String
  fileBase64 : String
  fileName : String
  fileContentType : String
  userId : Option String
  timestamp : String
deriving DecidableEq, Repr

/-- The pre-fetch stage of `addFile`: the chunked base64 decode and the
`FormData` build.  `Except.error` is the caught `atob` exception; no network
call happens in that case. -/
def addFileBuild (p : AddFileParams) : Except String Multipart :=
  match chunkedAtob p.fileBase64.data with
  | none => .error atobFailMessage
  | some bytes =>
    .ok ([("sessionId", .text p.sessionId), ("correlationId", .text p.correlationId),
          ("file", .file bytes p.fileName p.fileContentType)] ++
         (if truthy p.userId then [("userId", .text (p.userId.getD ""))] else []) ++
         [("timestamp", .text p.timestamp)])

/-- The `addFile` handler. -/
def addFileHandler (p : AddFileParams) (o : UpstreamOutcome) : ToolResult :=
  match addFileBuild p with
  | .error msg => caughtResult msg
  | .ok _ => postFetch o

/-- Parameters of the `intermediateResults` tool: `content` and the three
file fields are optional, everything else required. -/
structure IntermediateResultsParams where
  sessionId : String
  correlationId : String
  resourceName : String
  content : Option String
  fileBase64 : Option String
  fileName : Option String
  fileContentType : Option String
  userId : String
  timestamp : String
deriving DecidableEq, Repr

/-- Parameters of the `processingResult` tool: same content-or-file union,
with `processingTime` instead of `resourceName`. -/
structure ProcessingResultParams where
  sessionId : String
  correlationId : String
  processingTime : String
  content : Option String
  fileBase64 : Option String
  fileName : Option String
  fileContentType : Option String
  userId : String
  timestamp : String
deriving DecidableEq, Repr

/-- Outcome of a handler's pre-fetch stage: a payload that proceeds to the
`fetch` call, or a `ToolResult` returned without any network call. -/
inductive BuildOutcome where
  | payload : Multipart → BuildOutcome
  | reject : ToolResult → BuildOutcome
deriving DecidableEq, Repr

/-- The validation failure returned when neither `content` nor all three file
fields are (truthily) supplied. -/
def unionValidationReject : ToolResult :=
  ToolResult.mk [ContentItem.mk "text"
    "Error: Either content or file (with fileName and fileContentType) must be provided"]

/-- The content-or-file union logic shared by `intermediateResults` and
`processingResult`, applied after the base fields: `if (content)` appends a
text part and never looks at the file fields; `else if (fileBase64 &&
fileName && fileContentType)` decodes and appends a file part; `else` the
validation failure is returned with no network call. -/
def unionBranch (base : Multipart) (content fileBase64 fileName fileContentType : Option String) :
    BuildOutcome :=
  if truthy content then
    .payload (base ++ [("content", .text (content.getD ""))])
  else if truthy fileBase64 && truthy fileName && truthy fileContentType then
    match chunkedAtob (fileBase64.getD "").data with
    | some bytes =>
      .payload (base ++ [("file", .file bytes (fileName.getD "") (fileContentType.getD ""))])
    | none => .reject (caughtResult atobFailMessage)
  else
    .reject unionValidationReject

/-- Pre-fetch stage of `intermediateResults`: base fields in append order,
then the union branch. -/
def intermediateResultsBuild (p : IntermediateResultsParams) : BuildOutcome :=
  unionBranch
    [("sessionId", .text p.sessionId), ("correlationId", .text p.correlationId),
     ("resourceName", .text p.resourceName), ("userId", .text p.userId),
     ("timestamp", .text p.timestamp)]
    p.content p.fileBase64 p.fileName p.fileContentType

/-- The `intermediateResults` handler. -/
def intermediateResultsHandler (p : IntermediateResultsParams) (o : UpstreamOutcome) : ToolResult :=
  match intermediateResultsBuild p with
  | .payload _ => postFetch o
  | .reject r => r

/-- Pre-fetch stage of `processingResult`. -/
def processingResultBuild (p : ProcessingResultParams) : BuildOutcome :=
  unionBranch
    [("sessionId", .text p.sessionId), ("correlationId", .text p.correlationId),
     ("processingTime", .text p.processingTime), ("userId", .text p.userId),
     ("timestamp", .text p.timestamp)]
    p.content p.fileBase64 p.fileName p.fileContentType

/-- The `processingResult` handler. -/
def processingResultHandler (p : ProcessingResultParams) (o : UpstreamOutcome) : ToolResult :=
  match processingResultBuild p with
  | .payload _ => postFetch o
  | .reject r => r

/-! ### The SSE connection lifecycle (`handleSse` / `cleanupClient`)

Embedding of the durable-object draft: each connection gets a fresh stream
writer, a 5-second heartbeat interval timer, and an entry
`{ writer, interval }` in the process-wide `sseClients` set; the request's
abort signal triggers `cleanupClient(writer, interval, clientId)`, which
clears the interval and deletes the entry for every registered client with
that writer, then closes the writer.  Writers and interval timers are
identified by numeric ids; a heartbeat tick only writes a frame while its
timer is still active. -/

/-- One entry of the `sseClients` set: `{ writer, interval }`. -/
structure SseClient where
  writer : Nat
  interval : Nat
deriving DecidableEq, Repr

/-- The transport adapter's mutable state: the client registry, the interval
timers not yet cleared, and the stream writers not yet closed. -/
structure SseState where
  clients : List SseClient
  timers : List Nat
  openWriters : List Nat
deriving DecidableEq, Repr

/-- Connection setup (`handleSse`): register the fresh writer and heartbeat
timer and add the client to the registry. -/
def connectClient (s : SseState) (w i : Nat) : SseState :=
  { clients := s.clients ++ [SseClient.mk w i],
    timers := s.timers ++ [i],
    openWriters := s.openWriters ++ [w] }

/-- `cleanupClient(writer, interval, clientId)`: for every registered client
with this writer, clear its interval timer and delete it from the set; then
close the writer.  (The `interval` argument of the source function is unused
by its body; removal is keyed on the writer alone.) -/
def cleanupClient (s : SseState) (w : Nat) : SseState :=
  let removed := s.clients.filter (fun c => c.writer == w)
  { clients := s.clients.filter (fun c => !(c.writer == w)),
    timers := s.timers.filter (fun t => !(removed.any (fun c => c.interval == t))),
    openWriters := s.openWriters.filter (fun x => !(x == w)) }

/-- The abort listener installed by `handleSse`: the client abort signal
triggers `cleanupClient` on the connection's writer. -/
def abortClient (s : SseState) (w : Nat) : SseState :=
  cleanupClient s w

/-- One tick of a heartbeat interval timer: while the timer is active, a
heartbeat frame is appended to the connection's output log; a cleared timer
never fires, so nothing is written. -/
def heartbeatTick (s : SseState) (timerId : Nat) (frame : String) (log : List String) :
    List String :=
  if timerId ∈ s.timers then log ++ [frame] else log

/-! ### The non-streaming /mcp path (`handleMcp`)

Embedding of the durable-object draft's `handleMcp`: the body is parsed as
JSON (a parse failure, or the `TypeError` thrown by reading `.method` off a
`null` body, is caught by the surrounding try and answered with a -32700
envelope and HTTP status 400); `describe` returns the server description;
`run` extracts `body.params.tool` / `body.params.params` inside an inner try
whose catch answers -32000 with the exception's message and stack; any other
method is answered with -32601.  Tool handlers are a parameter (the server's
registry); `Except.error` models a thrown exception. -/

/-- A thrown JS exception as the catch blocks see it. -/
structure JsExn where
  message : String
  stack : String

/-- First-match field lookup in a JSON object. -/
def jsLookup : List (String × Json) → String → Option Json
  | [], _ => none
  | (k, v) :: rest, key => if k = key then some v else jsLookup rest key

/-- JS property read `v.k` where `none` is `undefined`: reading a property of
`undefined` or `null` throws a `TypeError` (`Except.error`); any other
non-object value just gives `undefined`. -/
def jsAccess (v : Option Json) (k : String) : Except Unit (Option Json) :=
  match v with
  | none => .error ()
  | some .null => .error ()
  | some (.obj fs) => .ok (jsLookup fs k)
  | some _ => .ok none

/-- Property read on a value already known non-null (total form used once the
`TypeError` cases are ruled out). -/
def jsProp (b : Json) (k : String) : Option Json :=
  match b with
  | .obj fs => jsLookup fs k
  | _ => none

/-- How a JS template literal displays an interpolated value (`undefined`,
primitives, and a rough rendering of the rest). -/
def jsTemplateShow : Option Json → String
  | none => "undefined"
  | some .null => "null"
  | some (.bool true) => "true"
  | some (.bool false) => "false"
  | some (.num n) => toString n
  | some (.str s) => s
  | some (.arr _) => ""
  | some (.obj _) => "[object Object]"

/-- Modelled from the spec: the platform `TypeError` thrown by a property
read on `undefined` or `null`. -/
def typeErrorExn : JsExn :=
  JsExn.mk "Cannot read properties of null or undefined" "TypeError"

/-- Modelled from the spec: the `details` message of a body that failed
`request.json()`. -/
def parseFailDetails : String := "Unexpected token in JSON"

/-- The registry of executable tools the durable object's server holds:
name to handler, a handler taking the (possibly `undefined`) params value and
either returning a result or throwing. -/
abbrev ToolRegistry := String → Option (Option Json → Except JsExn Json)

/-- The optional `id` member of an envelope: an `undefined` id is dropped by
`JSON.stringify`, any other value (including `null`) is kept. -/
def idField : Option Json → List (String × Json)
  | none => []
  | some v => [("id", v)]

/-- A JSON-RPC result envelope (`{ jsonrpc, result, id }`). -/
def rpcResult (r : Json) (idv : Option Json) : Json :=
  .obj ([("jsonrpc", .str "2.0"), ("result", r)] ++ idField idv)

/-- A JSON-RPC error envelope (`{ jsonrpc, error: { code, message, data? }, id }`). -/
def rpcError (code : Int) (msg : String) (dat : Option Json) (idv : Option Json) : Json :=
  .obj ([("jsonrpc", .str "2.0"),
         ("error", .obj ([("code", .num code), ("message", .str msg)] ++
           (match dat with
            | some d => [("data", d)]
            | none => [])))] ++ idField idv)

/-- The HTTP response `handleMcp` produces: status code and JSON body. -/
structure McpHttpResponse where
  status : Nat
  body : Json

/-- The -32700 answer of the outer catch (status 400, `id: null`). -/
def mcpParseErrorResponse : McpHttpResponse :=
  McpHttpResponse.mk 400
    (rpcError (-32700) "Parse error" (some (.obj [("details", .str parseFailDetails)]))
      (some .null))

/-- The `describe` answer: the server description envelope. -/
def mcpDescribe (toolsDesc : Json) (idv : Option Json) : McpHttpResponse :=
  McpHttpResponse.mk 200
    (rpcResult (.obj [("name", .str "COMPLiQ MCP Server"), ("version", .str "1.0.0"),
      ("tools", toolsDesc)]) idv)

/-- The unsupported-method answer (code -32601, the method interpolated into
the message). -/
def mcpMethodNotFound (m : Option Json) (idv : Option Json) : McpHttpResponse :=
  McpHttpResponse.mk 200
    (rpcError (-32601) ("Method not found: " ++ jsTemplateShow m) none idv)

/-- The `run` branch: `body.params.tool` and `body.params.params` are read
and the tool executed inside an inner try whose catch answers -32000 with the
exception's message (`|| "Tool execution failed"`) and stack. -/
def mcpRun (tools : ToolRegistry) (body : Json) (idv : Option Json) : McpHttpResponse :=
  let inner : Except JsExn Json :=
    match jsAccess (some body) "params" with
    | .error _ => .error typeErrorExn
    | .ok pv =>
      match jsAccess pv "tool" with
      | .error _ => .error typeErrorExn
      | .ok toolName =>
        match jsAccess pv "params" with
        | .error _ => .error typeErrorExn
        | .ok toolParams =>
          match toolName with
          | some (.str name) =>
            match tools name with
            | some h => h toolParams
            | none => .error (JsExn.mk ("Tool not found: " ++ name) "Error")
          | other => .error (JsExn.mk ("Tool not found: " ++ jsTemplateShow other) "Error")
  match inner with
  | .ok r => McpHttpResponse.mk 200 (rpcResult r idv)
  | .error e =>
    McpHttpResponse.mk 200
      (rpcError (-32000) (if e.message = "" then "Tool execution failed" else e.message)
        (some (.obj [("stack", .str e.stack)])) idv)

/-- `handleMcp` of the durable object, as a function of the tool registry,
the `getTools()` description, and the raw request body. -/
def handleMcp (tools : ToolRegistry) (toolsDesc : Json) (reqBody : String) : McpHttpResponse :=
  match jsonParse reqBody with
  | none => mcpParseErrorResponse
  | some body =>
    match jsAccess (some body) "method" with
    | .error _ => mcpParseErrorResponse
    | .ok m =>
      let idv : Option Json :=
        match jsAccess (some body) "id" with
        | .ok v => v
        | .error _ => none
      match m with
      | some (.str ms) =>
        if ms = "describe" then mcpDescribe toolsDesc idv
        else if ms = "run" then mcpRun tools body idv
        else mcpMethodNotFound (some (.str ms)) idv
      | other => mcpMethodNotFound other idv

/-- The `error.code` of an envelope, for stating which error class a response
falls in. -/
def errCodeOf (r : McpHttpResponse) : Option Int :=
  match jsProp r.body "error" with
  | some e =>
    match jsProp e "code" with
    | some (.num n) => some n
    | _ => none
  | _ => none

/-! ### The /health endpoint

Embedding of the worker `fetch` entry point's `/health` branch: the response
body surfaces only whether the API key binding exists, its `typeof`, its
length, and its first five characters followed by `"..."`, never more of the
key. -/

/-- The JSON body of the `/health` response, as a function of the configured
API key (absent binding is `none`), the current timestamp string, the
environment's key names, and the presence of the durable-object binding. -/
def healthBody (apiKey : Option String) (ts : String) (envKeys : List String) (hasMcp : Bool) :
    Json :=
  let keyType : String :=
    match apiKey with
    | some _ => "string"
    | none => "undefined"
  let firstChars : Json :=
    match apiKey with
    | some k => if k.length > 0 then .str (k.take 5 ++ "...") else .null
    | none => .null
  .obj [("status", .str "ok"), ("timestamp", .str ts),
        ("envKeys", .arr (envKeys.map .str)),
        ("hasApiKeyInKeys", .bool (envKeys.contains "COMPLIQ_API_KEY")),
        ("apiKeyType", .str keyType),
        ("apiKeyLength", .num (match apiKey with
          | some k => (k.length : Int)
          | none => 0)),
        ("apiKeyFirstChars", firstChars),
        ("hasMcpObjectBinding", .bool hasMcp)]

/-- The serialized `/health` response body. -/
def healthResponseBody (apiKey : Option String) (ts : String) (envKeys : List String)
    (hasMcp : Bool) : String :=
  jsonStringify (healthBody apiKey ts envKeys hasMcp)


/-! ## Supporting lemmas -/

/-- A truthy optional string is present. -/
theorem truthy_isSome {x : Option String} (h : truthy x = true) : x.isSome = true := by
  cases x <;> simp_all [truthy]

/-- A nonempty optional string is truthy. -/
theorem truthy_of_ne {s : String} (h : s ≠ "") : truthy (some s) = true := by
  have he : s.isEmpty = false := by
    rcases hb : s.isEmpty
    · rfl
    · exact absurd ((String.isEmpty_iff s).mp hb) h
  simp [truthy, he]

/-- `postFetch` always produces a single text item. -/
theorem postFetch_wellFormed (o : UpstreamOutcome) : wellFormed (postFetch o) := by
  cases o with
  | thrown msg => exact ⟨_, rfl⟩
  | response st body =>
    show wellFormed (if 200 ≤ st ∧ st ≤ 299 then
      match jsonParse body with
      | some j => ToolResult.mk [ContentItem.mk "text" (jsonStringify j)]
      | none => caughtResult jsonRejectMessage
      else ToolResult.mk [ContentItem.mk "text" ("Error: " ++ toString st ++ " - " ++ body)])
    by_cases hok : 200 ≤ st ∧ st ≤ 299
    · rw [if_pos hok]
      rcases h : jsonParse body with _ | j
      · exact ⟨_, rfl⟩
      · exact ⟨_, rfl⟩
    · rw [if_neg hok]; exact ⟨_, rfl⟩

/-- With a truthy `content`, the union branch attaches it as a text part and
never inspects the file fields. -/
theorem unionBranch_content (base : Multipart) (c : String) (hc : c ≠ "")
    (fb fn ct : Option String) :
    unionBranch base (some c) fb fn ct = .payload (base ++ [("content", .text c)]) := by
  unfold unionBranch
  rw [if_pos (truthy_of_ne hc)]
  rfl

/-- With a falsy `content` and a falsy file-field conjunction, the union
branch rejects with the validation message. -/
theorem unionBranch_validation (base : Multipart) (c fb fn ct : Option String)
    (hc : truthy c = false)
    (hf : (truthy fb && truthy fn && truthy ct) = false) :
    unionBranch base c fb fn ct = .reject unionValidationReject := by
  unfold unionBranch
  rw [if_neg (by simp [hc]), if_neg (by simp [hf])]

/-- With a falsy `content` and all three file fields truthy, the union branch
runs the chunked base64 decode and attaches a file part (or returns the
caught `atob` failure). -/
theorem unionBranch_file (base : Multipart) (c fb fn ct : Option String)
    (hc : truthy c = false)
    (hf : (truthy fb && truthy fn && truthy ct) = true) :
    unionBranch base c fb fn ct =
      (match chunkedAtob (fb.getD "").data with
       | some bytes => .payload (base ++ [("file", .file bytes (fn.getD "") (ct.getD ""))])
       | none => .reject (caughtResult atobFailMessage)) := by
  unfold unionBranch
  rw [if_neg (by simp [hc]), if_pos hf]

/-- Every rejection of the union branch is a well-formed text result. -/
theorem unionBranch_reject_wellFormed (base : Multipart) (c fb fn ct : Option String)
    (r : ToolResult) (h : unionBranch base c fb fn ct = .reject r) : wellFormed r := by
  unfold unionBranch at h
  split at h
  · simp at h
  · split at h
    · split at h
      · simp at h
      · injection h with h2
        subst h2
        exact ⟨_, rfl⟩
    · injection h with h2
      subst h2
      exact ⟨_, rfl⟩

/-- With a falsy `content`, the union branch does not depend on the content
argument at all: it behaves exactly as if `content` were absent. -/
theorem unionBranch_content_falsy (base : Multipart) (c fb fn ct : Option String)
    (hc : truthy c = false) :
    unionBranch base c fb fn ct = unionBranch base none fb fn ct := by
  unfold unionBranch
  rw [hc]
  rfl

/-! ## Claims -/

/-- C2: for `intermediateResults` and `processingResult`, whenever `content`
is absent and not all three file fields are present (in particular when
exactly two of the three are supplied), the pre-fetch stage rejects with the
validation-error `ToolResult` — so no upstream HTTP call is made — and the
handler returns that `ToolResult` whatever the upstream would have done. -/
theorem c2_union_validation (p : IntermediateResultsParams) (q : ProcessingResultParams)
    (hpc : p.content = none)
    (hpf : ¬(p.fileBase64.isSome = true ∧ p.fileName.isSome = true ∧
      p.fileContentType.isSome = true))
    (hqc : q.content = none)
    (hqf : ¬(q.fileBase64.isSome = true ∧ q.fileName.isSome = true ∧
      q.fileContentType.isSome = true)) :
    intermediateResultsBuild p = .reject unionValidationReject ∧
    (∀ o, intermediateResultsHandler p o = unionValidationReject) ∧
    processingResultBuild q = .reject unionValidationReject ∧
    (∀ o, processingResultHandler q o = unionValidationReject) := by
  have hfp : (truthy p.fileBase64 && truthy p.fileName && truthy p.fileContentType) = false := by
    cases hAll : (truthy p.fileBase64 && truthy p.fileName && truthy p.fileContentType) with
    | false => rfl
    | true =>
      rw [Bool.and_eq_true, Bool.and_eq_true] at hAll
      exact absurd ⟨truthy_isSome hAll.1.1, truthy_isSome hAll.1.2, truthy_isSome hAll.2⟩ hpf
  have hfq : (truthy q.fileBase64 && truthy q.fileName && truthy q.fileContentType) = false := by
    cases hAll : (truthy q.fileBase64 && truthy q.fileName && truthy q.fileContentType) with
    | false => rfl
    | true =>
      rw [Bool.and_eq_true, Bool.and_eq_true] at hAll
      exact absurd ⟨truthy_isSome hAll.1.1, truthy_isSome hAll.1.2, truthy_isSome hAll.2⟩ hqf
  have hcp : truthy p.content = false := by rw [hpc]; rfl
  have hcq : truthy q.content = false := by rw [hqc]; rfl
  have hbp : intermediateResultsBuild p = .reject unionValidationReject :=
    unionBranch_validation _ _ _ _ _ hcp hfp
  have hbq : processingResultBuild q = .reject unionValidationReject :=
    unionBranch_validation _ _ _ _ _ hcq hfq
  refine ⟨hbp, fun o => ?_, hbq, fun o => ?_⟩
  · simp only [intermediateResultsHandler, hbp]
  · simp only [processingResultHandler, hbq]

/-- C2 witness: a concrete call with `content` absent and only two of the
three file fields supplied is rejected with the validation error, for both
union-typed tools, and the handlers return it regardless of the outcome. -/
theorem c2_witness :
    intermediateResultsBuild
      (IntermediateResultsParams.mk "s" "c" "r" none (some "QQ==") (some "f.txt") none "u" "t") =
      .reject unionValidationReject ∧
    intermediateResultsHandler
      (IntermediateResultsParams.mk "s" "c" "r" none (some "QQ==") (some "f.txt") none "u" "t")
      (.response 200 "\x7b\x7d") = unionValidationReject ∧
    processingResultHandler
      (ProcessingResultParams.mk "s" "c" "00:00:01" none none none none "u" "t")
      (.thrown "boom") = unionValidationReject := by
  have h := c2_union_validation
    (IntermediateResultsParams.mk "s" "c" "r" none (some "QQ==") (some "f.txt") none "u" "t")
    (ProcessingResultParams.mk "s" "c" "00:00:01" none none none none "u" "t")
    rfl (by decide) rfl (by decide)
  exact ⟨h.1, h.2.1 _, h.2.2.2 _⟩

/-- C7: for the union-typed tools, a supplied `content` equal to the empty
string is treated exactly as an absent `content`, because the union check
tests JS truthiness rather than presence: the build (and hence the handler)
coincides with the build for `content := none`; consequently the file fields
are used when all three are (truthily) present and decode, and otherwise the
call fails validation even though `content` was explicitly provided. -/
theorem c7_empty_content_is_absent (p : IntermediateResultsParams)
    (q : ProcessingResultParams) (o : UpstreamOutcome)
    (hp : p.content = some "") (hq : q.content = some "") :
    (intermediateResultsBuild p = intermediateResultsBuild { p with content := none } ∧
     intermediateResultsHandler p o = intermediateResultsHandler { p with content := none } o ∧
     ((truthy p.fileBase64 && truthy p.fileName && truthy p.fileContentType) = false →
       intermediateResultsBuild p = .reject unionValidationReject) ∧
     (∀ fb fn ct bytes, p.fileBase64 = some fb → fb ≠ "" → p.fileName = some fn → fn ≠ "" →
       p.fileContentType = some ct → ct ≠ "" → chunkedAtob fb.data = some bytes →
       intermediateResultsBuild p =
         .payload [("sessionId", .text p.sessionId), ("correlationId", .text p.correlationId),
           ("resourceName", .text p.resourceName), ("userId", .text p.userId),
           ("timestamp", .text p.timestamp), ("file", .file bytes fn ct)])) ∧
    (processingResultBuild q = processingResultBuild { q with content := none } ∧
     processingResultHandler q o = processingResultHandler { q with content := none } o ∧
     ((truthy q.fileBase64 && truthy q.fileName && truthy q.fileContentType) = false →
       processingResultBuild q = .reject unionValidationReject) ∧
     (∀ fb fn ct bytes, q.fileBase64 = some fb → fb ≠ "" → q.fileName = some fn → fn ≠ "" →
       q.fileContentType = some ct → ct ≠ "" → chunkedAtob fb.data = some bytes →
       processingResultBuild q =
         .payload [("sessionId", .text q.sessionId), ("correlationId", .text q.correlationId),
           ("processingTime", .text q.processingTime), ("userId", .text q.userId),
           ("timestamp", .text q.timestamp), ("file", .file bytes fn ct)])) := by
  have hcp : truthy p.content = false := by rw [hp]; rfl
  have hcq : truthy q.content = false := by rw [hq]; rfl
  have hbp : intermediateResultsBuild p = intermediateResultsBuild { p with content := none } :=
    unionBranch_content_falsy _ _ _ _ _ hcp
  have hbq : processingResultBuild q = processingResultBuild { q with content := none } :=
    unionBranch_content_falsy _ _ _ _ _ hcq
  refine ⟨⟨hbp, ?_, ?_, ?_⟩, ⟨hbq, ?_, ?_, ?_⟩⟩
  · simp only [intermediateResultsHandler, hbp]
  · intro hf
    exact unionBranch_validation _ _ _ _ _ hcp hf
  · intro fb fn ct bytes hfb hfb0 hfn hfn0 hct hct0 hdec
    have hf : (truthy (some fb) && truthy (some fn) && truthy (some ct)) = true := by
      rw [truthy_of_ne hfb0, truthy_of_ne hfn0, truthy_of_ne hct0]
      rfl
    show unionBranch
      [("sessionId", FormPart.text p.sessionId), ("correlationId", FormPart.text p.correlationId),
       ("resourceName", FormPart.text p.resourceName), ("userId", FormPart.text p.userId),
       ("timestamp", FormPart.text p.timestamp)]
      p.content p.fileBase64 p.fileName p.fileContentType = _
    rw [hfb, hfn, hct, unionBranch_file _ p.content (some fb) (some fn) (some ct) hcp hf]
    simp only [Option.getD_some]
    rw [hdec]
    rfl
  · simp only [processingResultHandler, hbq]
  · intro hf
    exact unionBranch_validation _ _ _ _ _ hcq hf
  · intro fb fn ct bytes hfb hfb0 hfn hfn0 hct hct0 hdec
    have hf : (truthy (some fb) && truthy (some fn) && truthy (some ct)) = true := by
      rw [truthy_of_ne hfb0, truthy_of_ne hfn0, truthy_of_ne hct0]
      rfl
    show unionBranch
      [("sessionId", FormPart.text q.sessionId), ("correlationId", FormPart.text q.correlationId),
       ("processingTime", FormPart.text q.processingTime), ("userId", FormPart.text q.userId),
       ("timestamp", FormPart.text q.timestamp)]
      q.content q.fileBase64 q.fileName q.fileContentType = _
    rw [hfb, hfn, hct, unionBranch_file _ q.content (some fb) (some fn) (some ct) hcq hf]
    simp only [Option.getD_some]
    rw [hdec]
    rfl

/-- C7 witness: concrete calls with `content` explicitly supplied as the
empty string: with all three file fields given the file part is attached;
with only two of them the call fails validation despite the supplied content. -/
theorem c7_witness :
    intermediateResultsBuild
      (IntermediateResultsParams.mk "s" "c" "r" (some "") (some "QQ==") (some "f.txt")
        (some "text/plain") "u" "t") =
      .payload [("sessionId", .text "s"), ("correlationId", .text "c"),
        ("resourceName", .text "r"), ("userId", .text "u"), ("timestamp", .text "t"),
        ("file", .file [65] "f.txt" "text/plain")] ∧
    processingResultBuild
      (ProcessingResultParams.mk "s" "c" "00:00:01" (some "") (some "QQ==") none none "u" "t") =
      .reject unionValidationReject := by
  have h := c7_empty_content_is_absent
    (IntermediateResultsParams.mk "s" "c" "r" (some "") (some "QQ==") (some "f.txt")
      (some "text/plain") "u" "t")
    (ProcessingResultParams.mk "s" "c" "00:00:01" (some "") (some "QQ==") none none "u" "t")
    (.response 200 "\x7b\x7d") rfl rfl
  refine ⟨?_, ?_⟩
  · exact h.1.2.2.2 "QQ==" "f.txt" "text/plain" [65] rfl (by decide) rfl (by decide) rfl
      (by decide) (by decide)
  · exact h.2.2.2.1 (by decide)

/-- C1 counterexample: a call with `content` supplied (as the empty string)
together with all three file fields does NOT attach content as a text part
and does NOT ignore the file fields — the built payload carries a decoded
file part and no content part, because the precedence check tests truthiness,
not presence.  This refutes the claim as stated for that input. -/
theorem c1_counterexample :
    intermediateResultsBuild
      (IntermediateResultsParams.mk "s" "c" "r" (some "") (some "QQ==") (some "f.txt")
        (some "text/plain") "u" "t") =
      .payload [("sessionId", .text "s"), ("correlationId", .text "c"),
        ("resourceName", .text "r"), ("userId", .text "u"), ("timestamp", .text "t"),
        ("file", .file [65] "f.txt" "text/plain")] ∧
    ([("sessionId", FormPart.text "s"), ("correlationId", FormPart.text "c"),
      ("resourceName", FormPart.text "r"), ("userId", FormPart.text "u"),
      ("timestamp", FormPart.text "t"),
      ("file", FormPart.file [65] "f.txt" "text/plain")].any
        (fun e => match e.2 with
          | FormPart.file _ _ _ => true
          | _ => false)) = true ∧
    ([("sessionId", FormPart.text "s"), ("correlationId", FormPart.text "c"),
      ("resourceName", FormPart.text "r"), ("userId", FormPart.text "u"),
      ("timestamp", FormPart.text "t"),
      ("file", FormPart.file [65] "f.txt" "text/plain")].any
        (fun e => e.1 == "content")) = false := by
  refine ⟨by decide, by decide, by decide⟩

/-- C1 (amended): for `intermediateResults` and `processingResult`, whenever
a NON-EMPTY `content` is supplied together with all three file fields, the
built multipart payload attaches `content` as a text part and ignores the
file fields entirely (no file part, no base64 decoding): non-empty content
deterministically takes precedence. -/
theorem c1_content_precedence (p : IntermediateResultsParams) (q : ProcessingResultParams)
    (c d : String)
    (hp : p.content = some c) (hc : c ≠ "")
    (_hpb : p.fileBase64.isSome = true) (_hpn : p.fileName.isSome = true)
    (_hpt : p.fileContentType.isSome = true)
    (hq : q.content = some d) (hd : d ≠ "")
    (_hqb : q.fileBase64.isSome = true) (_hqn : q.fileName.isSome = true)
    (_hqt : q.fileContentType.isSome = true) :
    intermediateResultsBuild p =
      .payload [("sessionId", .text p.sessionId), ("correlationId", .text p.correlationId),
        ("resourceName", .text p.resourceName), ("userId", .text p.userId),
        ("timestamp", .text p.timestamp), ("content", .text c)] ∧
    processingResultBuild q =
      .payload [("sessionId", .text q.sessionId), ("correlationId", .text q.correlationId),
        ("processingTime", .text q.processingTime), ("userId", .text q.userId),
        ("timestamp", .text q.timestamp), ("content", .text d)] := by
  constructor
  · show unionBranch
      [("sessionId", FormPart.text p.sessionId), ("correlationId", FormPart.text p.correlationId),
       ("resourceName", FormPart.text p.resourceName), ("userId", FormPart.text p.userId),
       ("timestamp", FormPart.text p.timestamp)]
      p.content p.fileBase64 p.fileName p.fileContentType = _
    rw [hp, unionBranch_content _ c hc]
    rfl
  · show unionBranch
      [("sessionId", FormPart.text q.sessionId), ("correlationId", FormPart.text q.correlationId),
       ("processingTime", FormPart.text q.processingTime), ("userId", FormPart.text q.userId),
       ("timestamp", FormPart.text q.timestamp)]
      q.content q.fileBase64 q.fileName q.fileContentType = _
    rw [hq, unionBranch_content _ d hd]
    rfl

/-- C1 witness: a concrete call on each union-typed tool with a non-empty
content and all three file fields: the payload carries the content text part
and no file part. -/
theorem c1_witness :
    intermediateResultsBuild
      (IntermediateResultsParams.mk "s" "c" "r" (some "hello") (some "QQ==") (some "f.txt")
        (some "text/plain") "u" "t") =
      .payload [("sessionId", .text "s"), ("correlationId", .text "c"),
        ("resourceName", .text "r"), ("userId", .text "u"), ("timestamp", .text "t"),
        ("content", .text "hello")] ∧
    processingResultBuild
      (ProcessingResultParams.mk "s" "c" "00:00:01" (some "answer") (some "QQ==")
        (some "f.txt") (some "text/plain") "u" "t") =
      .payload [("sessionId", .text "s"), ("correlationId", .text "c"),
        ("processingTime", .text "00:00:01"), ("userId", .text "u"), ("timestamp", .text "t"),
        ("content", .text "answer")] :=
  c1_content_precedence
    (IntermediateResultsParams.mk "s" "c" "r" (some "hello") (some "QQ==") (some "f.txt")
      (some "text/plain") "u" "t")
    (ProcessingResultParams.mk "s" "c" "00:00:01" (some "answer") (some "QQ==") (some "f.txt")
      (some "text/plain") "u" "t")
    "hello" "answer" rfl (by decide) rfl rfl rfl rfl (by decide) rfl rfl rfl

/-- C3 counterexample: on a thrown exception whose message is the empty
string, the handler text is `Error: Unknown error` rather than `Error: `
followed by the (empty) exception message — the catch block applies the
JS `|| "Unknown error"` fallback.  This refutes the claim's text clause at
that input. -/
theorem c3_counterexample :
    inputPromptHandler (InputPromptParams.mk "s" "c" "hi" "u" "t") (.thrown "") =
      ToolResult.mk [ContentItem.mk "text" "Error: Unknown error"] ∧
    "Error: Unknown error" ≠ "Error: " ++ "" := by
  refine ⟨by decide, by decide⟩

/-- C3 (amended): every tool handler, on every input and upstream outcome,
returns a well-formed single-text `ToolResult` (the try/catch never lets an
exception escape); on a thrown exception the text is `Error: ` followed by
the exception message when that message is non-empty, and `Error: Unknown
error` when it is empty.  For the three handlers with a pre-fetch stage the
thrown-outcome clause applies to calls that reach the fetch. -/
theorem c3_uniform_envelope (p1 : InputPromptParams) (p2 : AddFileParams)
    (p3 : IntermediateResultsParams) (p4 : ProcessingResultParams)
    (o : UpstreamOutcome) (msg : String) :
    wellFormed (inputPromptHandler p1 o) ∧
    wellFormed (addFileHandler p2 o) ∧
    wellFormed (intermediateResultsHandler p3 o) ∧
    wellFormed (processingResultHandler p4 o) ∧
    inputPromptHandler p1 (.thrown msg) =
      ToolResult.mk [ContentItem.mk "text"
        ("Error: " ++ (if msg = "" then "Unknown error" else msg))] ∧
    ((∃ m, addFileBuild p2 = .ok m) → addFileHandler p2 (.thrown msg) =
      ToolResult.mk [ContentItem.mk "text"
        ("Error: " ++ (if msg = "" then "Unknown error" else msg))]) ∧
    ((∃ m, intermediateResultsBuild p3 = .payload m) →
      intermediateResultsHandler p3 (.thrown msg) =
        ToolResult.mk [ContentItem.mk "text"
          ("Error: " ++ (if msg = "" then "Unknown error" else msg))]) ∧
    ((∃ m, processingResultBuild p4 = .payload m) →
      processingResultHandler p4 (.thrown msg) =
        ToolResult.mk [ContentItem.mk "text"
          ("Error: " ++ (if msg = "" then "Unknown error" else msg))]) := by
  refine ⟨postFetch_wellFormed o, ?_, ?_, ?_, rfl, ?_, ?_, ?_⟩
  · unfold addFileHandler
    rcases h : addFileBuild p2 with m | e
    · exact ⟨_, rfl⟩
    · exact postFetch_wellFormed o
  · unfold intermediateResultsHandler
    rcases h : intermediateResultsBuild p3 with m | r
    · exact postFetch_wellFormed o
    · exact unionBranch_reject_wellFormed _ _ _ _ _ _ h
  · unfold processingResultHandler
    rcases h : processingResultBuild p4 with m | r
    · exact postFetch_wellFormed o
    · exact unionBranch_reject_wellFormed _ _ _ _ _ _ h
  · rintro ⟨m, hm⟩
    simp only [addFileHandler, hm]
    rfl
  · rintro ⟨m, hm⟩
    simp only [intermediateResultsHandler, hm]
    rfl
  · rintro ⟨m, hm⟩
    simp only [processingResultHandler, hm]
    rfl

/-- C3 witness: concrete instances — an upstream 200 response yields a
well-formed result, and thrown exceptions with non-empty messages surface
those messages for handlers that reach the fetch. -/
theorem c3_witness :
    wellFormed (inputPromptHandler (InputPromptParams.mk "s" "c" "hi" "u" "t")
      (.response 200 "\x7b\x7d")) ∧
    addFileHandler (AddFileParams.mk "s" "c" "QQ==" "f.txt" "text/plain" none "t")
      (.thrown "boom") = ToolResult.mk [ContentItem.mk "text" "Error: boom"] ∧
    intermediateResultsHandler
      (IntermediateResultsParams.mk "s" "c" "r" (some "x") none none none "u" "t")
      (.thrown "boom") = ToolResult.mk [ContentItem.mk "text" "Error: boom"] := by
  have h := c3_uniform_envelope (InputPromptParams.mk "s" "c" "hi" "u" "t")
    (AddFileParams.mk "s" "c" "QQ==" "f.txt" "text/plain" none "t")
    (IntermediateResultsParams.mk "s" "c" "r" (some "x") none none none "u" "t")
    (ProcessingResultParams.mk "s" "c" "00:00:01" (some "x") none none none "u" "t")
    (.response 200 "\x7b\x7d") "boom"
  refine ⟨h.1, ?_, ?_⟩
  · have h2 := h.2.2.2.2.2.1 ⟨_, rfl⟩
    simpa using h2
  · have h3 := h.2.2.2.2.2.2.1 ⟨_, rfl⟩
    simpa using h3

/-- C4: for every upstream response whose status is outside the success range
200–299, the handler returns the text `Error: <status> - <body>` built from
the status and the body read as text; this holds for `inputPrompt` outright
and for the other three handlers on every call that reaches the fetch. -/
theorem c4_upstream_error (p1 : InputPromptParams) (p2 : AddFileParams)
    (p3 : IntermediateResultsParams) (p4 : ProcessingResultParams)
    (st : Nat) (body : String) (hst : ¬(200 ≤ st ∧ st ≤ 299)) :
    inputPromptHandler p1 (.response st body) =
      ToolResult.mk [ContentItem.mk "text" ("Error: " ++ toString st ++ " - " ++ body)] ∧
    ((∃ m, addFileBuild p2 = .ok m) → addFileHandler p2 (.response st body) =
      ToolResult.mk [ContentItem.mk "text" ("Error: " ++ toString st ++ " - " ++ body)]) ∧
    ((∃ m, intermediateResultsBuild p3 = .payload m) →
      intermediateResultsHandler p3 (.response st body) =
        ToolResult.mk [ContentItem.mk "text" ("Error: " ++ toString st ++ " - " ++ body)]) ∧
    ((∃ m, processingResultBuild p4 = .payload m) →
      processingResultHandler p4 (.response st body) =
        ToolResult.mk [ContentItem.mk "text" ("Error: " ++ toString st ++ " - " ++ body)]) := by
  have hpf : postFetch (.response st body) =
      ToolResult.mk [ContentItem.mk "text" ("Error: " ++ toString st ++ " - " ++ body)] := by
    show (if 200 ≤ st ∧ st ≤ 299 then
      match jsonParse body with
      | some j => ToolResult.mk [ContentItem.mk "text" (jsonStringify j)]
      | none => caughtResult jsonRejectMessage
      else ToolResult.mk [ContentItem.mk "text" ("Error: " ++ toString st ++ " - " ++ body)]) = _
    rw [if_neg hst]
  refine ⟨hpf, ?_, ?_, ?_⟩
  · rintro ⟨m, hm⟩
    simp only [addFileHandler, hm]
    exact hpf
  · rintro ⟨m, hm⟩
    simp only [intermediateResultsHandler, hm]
    exact hpf
  · rintro ⟨m, hm⟩
    simp only [processingResultHandler, hm]
    exact hpf

/-- C4 witness: a concrete upstream 503 response with body `overloaded`
yields exactly the text `Error: 503 - overloaded`, shown for `inputPrompt`
and for an `addFile` call that reaches the fetch. -/
theorem c4_witness :
    inputPromptHandler (InputPromptParams.mk "s" "c" "hi" "u" "t") (.response 503 "overloaded") =
      ToolResult.mk [ContentItem.mk "text" "Error: 503 - overloaded"] ∧
    addFileHandler (AddFileParams.mk "s" "c" "QQ==" "f.txt" "text/plain" none "t")
      (.response 503 "overloaded") =
      ToolResult.mk [ContentItem.mk "text" "Error: 503 - overloaded"] := by
  have h := c4_upstream_error (InputPromptParams.mk "s" "c" "hi" "u" "t")
    (AddFileParams.mk "s" "c" "QQ==" "f.txt" "text/plain" none "t")
    (IntermediateResultsParams.mk "s" "c" "r" (some "x") none none none "u" "t")
    (ProcessingResultParams.mk "s" "c" "00:00:01" (some "x") none none none "u" "t")
    503 "overloaded" (by decide)
  refine ⟨?_, ?_⟩
  · rw [h.1]
    decide
  · rw [h.2.1 ⟨_, rfl⟩]
    decide

/-- C5: for every upstream 2xx response whose body parses as JSON, the
handler returns the JSON re-serialization of the parsed value; this holds
for `inputPrompt` outright and for the other three handlers on every call
that reaches the fetch. -/
theorem c5_success_serialization (p1 : InputPromptParams) (p2 : AddFileParams)
    (p3 : IntermediateResultsParams) (p4 : ProcessingResultParams)
    (st : Nat) (body : String) (j : Json)
    (hok : 200 ≤ st ∧ st ≤ 299) (hparse : jsonParse body = some j) :
    inputPromptHandler p1 (.response st body) =
      ToolResult.mk [ContentItem.mk "text" (jsonStringify j)] ∧
    ((∃ m, addFileBuild p2 = .ok m) → addFileHandler p2 (.response st body) =
      ToolResult.mk [ContentItem.mk "text" (jsonStringify j)]) ∧
    ((∃ m, intermediateResultsBuild p3 = .payload m) →
      intermediateResultsHandler p3 (.response st body) =
        ToolResult.mk [ContentItem.mk "text" (jsonStringify j)]) ∧
    ((∃ m, processingResultBuild p4 = .payload m) →
      processingResultHandler p4 (.response st body) =
        ToolResult.mk [ContentItem.mk "text" (jsonStringify j)]) := by
  have hpf : postFetch (.response st body) =
      ToolResult.mk [ContentItem.mk "text" (jsonStringify j)] := by
    show (if 200 ≤ st ∧ st ≤ 299 then
      match jsonParse body with
      | some j2 => ToolResult.mk [ContentItem.mk "text" (jsonStringify j2)]
      | none => caughtResult jsonRejectMessage
      else ToolResult.mk [ContentItem.mk "text" ("Error: " ++ toString st ++ " - " ++ body)]) = _
    rw [if_pos hok, hparse]
  refine ⟨hpf, ?_, ?_, ?_⟩
  · rintro ⟨m, hm⟩
    simp only [addFileHandler, hm]
    exact hpf
  · rintro ⟨m, hm⟩
    simp only [intermediateResultsHandler, hm]
    exact hpf
  · rintro ⟨m, hm⟩
    simp only [processingResultHandler, hm]
    exact hpf

/-- C5 witness: a concrete upstream 200 response with JSON body
`{"id":"abc"}` yields exactly the text `{"id":"abc"}`. -/
theorem c5_witness :
    inputPromptHandler (InputPromptParams.mk "s" "c" "hi" "u" "t")
      (.response 200 "\x7b\"id\":\"abc\"\x7d") =
      ToolResult.mk [ContentItem.mk "text" "\x7b\"id\":\"abc\"\x7d"] := by
  have h := c5_success_serialization (InputPromptParams.mk "s" "c" "hi" "u" "t")
    (AddFileParams.mk "s" "c" "QQ==" "f.txt" "text/plain" none "t")
    (IntermediateResultsParams.mk "s" "c" "r" (some "x") none none none "u" "t")
    (ProcessingResultParams.mk "s" "c" "00:00:01" (some "x") none none none "u" "t")
    200 "\x7b\"id\":\"abc\"\x7d" (.obj [("id", .str "abc")]) (by decide) rfl
  rw [h.1]
  decide

/-- C8: after the client abort signal fires (which runs `cleanupClient` on
the connection's writer), the heartbeat interval timer of that client is
cleared — so a subsequent heartbeat tick writes no frame — the writer is
closed, and the client's entry is removed from the process-wide registry,
whose size decreases by exactly one (writers are unique per connection). -/
theorem c8_abort_cleanup (s : SseState) (c : SseClient)
    (hmem : c ∈ s.clients)
    (huniq : (s.clients.filter (fun x => x.writer == c.writer)).length = 1) :
    (abortClient s c.writer).clients.length + 1 = s.clients.length ∧
    c.writer ∉ (abortClient s c.writer).openWriters ∧
    c.interval ∉ (abortClient s c.writer).timers ∧
    (∀ frame log, heartbeatTick (abortClient s c.writer) c.interval frame log = log) := by
  have hrm : c ∈ s.clients.filter (fun x => x.writer == c.writer) := by
    rw [List.mem_filter]
    exact ⟨hmem, by simp⟩
  have htimer : c.interval ∉ (abortClient s c.writer).timers := by
    intro hin
    rw [abortClient, cleanupClient] at hin
    simp only [List.mem_filter] at hin
    have hany : (s.clients.filter (fun x => x.writer == c.writer)).any
        (fun x => x.interval == c.interval) = true := by
      rw [List.any_eq_true]
      exact ⟨c, hrm, by simp⟩
    rw [hany] at hin
    simp at hin
  refine ⟨?_, ?_, htimer, ?_⟩
  · have hsplit := List.length_eq_length_filter_add (l := s.clients)
      (fun x => x.writer == c.writer)
    rw [abortClient, cleanupClient]
    simp only []
    omega
  · intro hin
    rw [abortClient, cleanupClient] at hin
    simp only [List.mem_filter] at hin
    simp at hin
  · intro frame log
    rw [heartbeatTick, if_neg htimer]

/-- C8 witness: a concrete registry with two connected clients: aborting the
first removes exactly its entry, closes its writer, clears its timer, and a
subsequent tick of that timer writes nothing. -/
theorem c8_witness :
    (abortClient (SseState.mk [SseClient.mk 1 10, SseClient.mk 2 20] [10, 20] [1, 2])
      1).clients.length + 1 =
      (SseState.mk [SseClient.mk 1 10, SseClient.mk 2 20] [10, 20] [1, 2]).clients.length ∧
    (1 : Nat) ∉ (abortClient (SseState.mk [SseClient.mk 1 10, SseClient.mk 2 20]
      [10, 20] [1, 2]) 1).openWriters ∧
    heartbeatTick (abortClient (SseState.mk [SseClient.mk 1 10, SseClient.mk 2 20]
      [10, 20] [1, 2]) 1) 10 "hb" [] = [] := by
  have h := c8_abort_cleanup (SseState.mk [SseClient.mk 1 10, SseClient.mk 2 20] [10, 20] [1, 2])
    (SseClient.mk 1 10) (by decide) (by decide)
  exact ⟨h.1, h.2.1, h.2.2.2 "hb" []⟩

/-- C10 counterexample: for the five-character API key `abcde`, the `/health`
response body contains the key in full — `substring(0, 5) + "..."` of a key
of length at most five IS the whole key — refuting the claim that the body
never contains the key in full for every key value. -/
theorem c10_counterexample :
    "abcde".data <:+:
      (healthResponseBody (some "abcde") "2025-01-01T00:00:00.000Z"
        ["COMPLIQ_API_KEY", "MCP_OBJECT"] true).data ∧
    ("abcde" : String).length ≤ 5 := by
  refine ⟨by decide, by decide⟩

/-- C10 (amended): the `/health` response body depends on the configured API
key only through its existence, its length, and its first five characters:
two present keys agreeing on length and five-character prefix produce
identical bodies.  In particular no other part of the key can be surfaced —
but a key of length at most five is surfaced in full, since its
five-character prefix is the whole key. -/
theorem c10_health_key_dependence (k1 k2 : String) (ts : String) (envKeys : List String)
    (hasMcp : Bool) (hlen : k1.length = k2.length) (hpre : k1.take 5 = k2.take 5) :
    healthBody (some k1) ts envKeys hasMcp = healthBody (some k2) ts envKeys hasMcp ∧
    healthResponseBody (some k1) ts envKeys hasMcp =
      healthResponseBody (some k2) ts envKeys hasMcp := by
  have hb : healthBody (some k1) ts envKeys hasMcp = healthBody (some k2) ts envKeys hasMcp := by
    simp only [healthBody]
    rw [hlen, hpre]
  exact ⟨hb, by rw [healthResponseBody, healthResponseBody, hb]⟩

/-- C10 witness: two distinct nine-character keys sharing length and
five-character prefix produce identical health bodies. -/
theorem c10_witness :
    healthResponseBody (some "secretABC") "2025-01-01T00:00:00.000Z"
      ["COMPLIQ_API_KEY", "MCP_OBJECT"] true =
    healthResponseBody (some "secretXYZ") "2025-01-01T00:00:00.000Z"
      ["COMPLIQ_API_KEY", "MCP_OBJECT"] true :=
  (c10_health_key_dependence "secretABC" "secretXYZ" "2025-01-01T00:00:00.000Z"
    ["COMPLIQ_API_KEY", "MCP_OBJECT"] true (by decide) (by decide)).2

/-- Property access on a non-null value never throws and agrees with the
total lookup `jsProp`. -/
theorem jsAccess_some {b : Json} (h : b ≠ .null) (k : String) :
    jsAccess (some b) k = .ok (jsProp b k) := by
  cases b
  · exact absurd rfl h
  · rfl
  · rfl
  · rfl
  · rfl
  · rfl

/-- The error code of an unsupported-method answer is -32601, whatever the
method and id. -/
theorem errCodeOf_methodNotFound (m idv : Option Json) :
    errCodeOf (mcpMethodNotFound m idv) = some (-32601) := rfl

/-- C9 counterexample: the request body `null` is well-formed JSON whose
method is neither `describe` nor `run`, yet the response carries code -32700
(the parse-error envelope), not -32601: reading `.method` off the null body
throws a `TypeError` that the outer catch answers as a parse error. -/
theorem c9_counterexample :
    handleMcp (fun _ => none) (Json.arr []) "null" = mcpParseErrorResponse ∧
    errCodeOf (handleMcp (fun _ => none) (Json.arr []) "null") = some (-32700) ∧
    (-32700 : Int) ≠ -32601 :=
  ⟨rfl, rfl, by decide⟩

/-- C9 (amended): on the non-streaming /mcp path, a body that fails JSON
parsing yields the -32700 parse-error envelope; a parsed body that is `null`
also yields -32700 (property access on null throws inside the same try); a
well-formed non-null body whose method is neither `describe` nor `run`
yields -32601; and an exception thrown while extracting or executing the
tool under method `run` yields -32000 with the exception message (or the
`Tool execution failed` fallback when that message is empty) and the stack
in the error's `data` field. -/
theorem c9_mcp_dispatch (tools : ToolRegistry) (td : Json) (s : String) (b pj : Json)
    (name : String) (h : Option Json → Except JsExn Json) (e : JsExn) :
    (jsonParse s = none → handleMcp tools td s = mcpParseErrorResponse) ∧
    (jsonParse s = some .null → handleMcp tools td s = mcpParseErrorResponse) ∧
    (errCodeOf mcpParseErrorResponse = some (-32700)) ∧
    (jsonParse s = some b → b ≠ .null →
      (∀ ms, jsProp b "method" = some (.str ms) → ms ≠ "describe" ∧ ms ≠ "run") →
      errCodeOf (handleMcp tools td s) = some (-32601)) ∧
    (jsonParse s = some b → b ≠ .null →
      jsProp b "method" = some (.str "run") →
      jsProp b "params" = some pj → pj ≠ .null →
      jsProp pj "tool" = some (.str name) →
      tools name = some h →
      h (jsProp pj "params") = .error e →
      handleMcp tools td s = McpHttpResponse.mk 200
        (rpcError (-32000) (if e.message = "" then "Tool execution failed" else e.message)
          (some (.obj [("stack", .str e.stack)])) (jsProp b "id"))) := by
  refine ⟨?_, ?_, rfl, ?_, ?_⟩
  · intro h1
    simp only [handleMcp, h1]
  · intro h2
    simp only [handleMcp, h2]
    rfl
  · intro hparse hnull hm
    have haccM := jsAccess_some hnull "method"
    have haccI := jsAccess_some hnull "id"
    rcases hjm : jsProp b "method" with _ | j
    · simp only [handleMcp, hparse, haccM, haccI, hjm]
      rfl
    · cases j with
      | str ms =>
        obtain ⟨hd, hr⟩ := hm ms hjm
        simp only [handleMcp, hparse, haccM, haccI, hjm]
        rw [if_neg hd, if_neg hr]
        exact errCodeOf_methodNotFound _ _
      | null => simp only [handleMcp, hparse, haccM, haccI, hjm]; rfl
      | bool v => simp only [handleMcp, hparse, haccM, haccI, hjm]; rfl
      | num n => simp only [handleMcp, hparse, haccM, haccI, hjm]; rfl
      | arr xs => simp only [handleMcp, hparse, haccM, haccI, hjm]; rfl
      | obj fs => simp only [handleMcp, hparse, haccM, haccI, hjm]; rfl
  · intro hparse hnull hmeth hparams hpjnull htool htools hexec
    have haccM := jsAccess_some hnull "method"
    have haccI := jsAccess_some hnull "id"
    have haccP := jsAccess_some hnull "params"
    have haccT := jsAccess_some hpjnull "tool"
    have haccPP := jsAccess_some hpjnull "params"
    simp only [handleMcp, hparse, haccM, haccI, hmeth]
    rw [if_neg (by decide : ¬(("run" : String) = "describe"))]
    rw [if_pos trivial]
    simp only [mcpRun, haccP, hparams, haccT, htool, haccPP, htools, hexec]

/-- C9 witness: a concrete run request whose tool throws is answered with
code -32000, the thrown message, and the stack in `data`; a concrete request
with unknown method `zap` is answered with -32601; an unparseable body is
answered with -32700. -/
theorem c9_witness :
    handleMcp
      (fun n => if n = "boom" then some (fun _ => .error (JsExn.mk "kaput" "stacky")) else none)
      (Json.arr []) "\x7b\"method\":\"run\",\"params\":\x7b\"tool\":\"boom\"\x7d\x7d" =
      McpHttpResponse.mk 200
        (rpcError (-32000) "kaput" (some (.obj [("stack", .str "stacky")])) none) ∧
    errCodeOf (handleMcp
      (fun n => if n = "boom" then some (fun _ => .error (JsExn.mk "kaput" "stacky")) else none)
      (Json.arr []) "\x7b\"method\":\"zap\"\x7d") = some (-32601) ∧
    handleMcp
      (fun n => if n = "boom" then some (fun _ => .error (JsExn.mk "kaput" "stacky")) else none)
      (Json.arr []) "nonsense" = mcpParseErrorResponse := by
  have hrun := (c9_mcp_dispatch
    (fun n => if n = "boom" then some (fun _ => .error (JsExn.mk "kaput" "stacky")) else none)
    (Json.arr []) "\x7b\"method\":\"run\",\"params\":\x7b\"tool\":\"boom\"\x7d\x7d"
    (.obj [("method", .str "run"), ("params", .obj [("tool", .str "boom")])])
    (.obj [("tool", .str "boom")]) "boom"
    (fun _ => .error (JsExn.mk "kaput" "stacky")) (JsExn.mk "kaput" "stacky")).2.2.2.2
    rfl (by simp) rfl rfl (by simp) rfl rfl rfl
  have hzap := (c9_mcp_dispatch
    (fun n => if n = "boom" then some (fun _ => .error (JsExn.mk "kaput" "stacky")) else none)
    (Json.arr []) "\x7b\"method\":\"zap\"\x7d"
    (.obj [("method", .str "zap")]) (.obj []) "boom"
    (fun _ => .error (JsExn.mk "kaput" "stacky")) (JsExn.mk "kaput" "stacky")).2.2.2.1
    rfl (by simp)
    (by
      intro ms hms
      injection hms with h1
      injection h1 with h2
      constructor
      · intro hcon
        rw [← h2] at hcon
        exact absurd hcon (by decide)
      · intro hcon
        rw [← h2] at hcon
        exact absurd hcon (by decide))
  have hbad := (c9_mcp_dispatch
    (fun n => if n = "boom" then some (fun _ => .error (JsExn.mk "kaput" "stacky")) else none)
    (Json.arr []) "nonsense"
    (.obj []) (.obj []) "boom"
    (fun _ => .error (JsExn.mk "kaput" "stacky")) (JsExn.mk "kaput" "stacky")).1 rfl
  exact ⟨hrun, hzap, hbad⟩

/-- Decoding inverts encoding on each sextet of the base64 alphabet. -/
theorem b64Index_b64Char : ∀ n, n < 64 → b64Index (b64Char n) = some n := by decide

/-- No alphabet character is the padding character. -/
theorem b64Char_ne_eqsign : ∀ n, n < 64 → b64Char n ≠ '=' := by decide

/-- First byte recovered from the first two sextets of a full group. -/
theorem b64_byte1 (a b : Nat) (hb : b < 256) :
    a / 4 * 4 + (a % 4 * 16 + b / 16) / 16 = a := by
  have h16 : (a % 4 * 16 + b / 16) / 16 = a % 4 := by
    rw [Nat.mul_comm (a % 4) 16, Nat.mul_add_div (by norm_num)]
    omega
  rw [h16]
  omega

/-- Second byte recovered from the middle sextets of a full group. -/
theorem b64_byte2 (a b c : Nat) (hb : b < 256) (hc : c < 256) :
    (a % 4 * 16 + b / 16) % 16 * 16 + (b % 16 * 4 + c / 64) / 4 = b := by
  have hm : (a % 4 * 16 + b / 16) % 16 = b / 16 := by
    rw [Nat.mul_comm (a % 4) 16, Nat.mul_add_mod]
    omega
  have hd : (b % 16 * 4 + c / 64) / 4 = b % 16 := by
    rw [Nat.mul_comm (b % 16) 4, Nat.mul_add_div (by norm_num)]
    omega
  rw [hm, hd]
  omega

/-- Third byte recovered from the last two sextets of a full group. -/
theorem b64_byte3 (b c : Nat) (hc : c < 256) :
    (b % 16 * 4 + c / 64) % 4 * 64 + c % 64 = c := by
  have hm : (b % 16 * 4 + c / 64) % 4 = c / 64 := by
    rw [Nat.mul_comm (b % 16) 4, Nat.mul_add_mod]
    omega
  rw [hm]
  omega

/-- One-byte tail: the byte recovered from a `xx==` group. -/
theorem b64_byte1e (a : Nat) : a / 4 * 4 + a % 4 * 16 / 16 = a := by
  have h16 : a % 4 * 16 / 16 = a % 4 := Nat.mul_div_cancel _ (by norm_num)
  rw [h16]
  omega

/-- Two-byte tail: the second byte recovered from a `xxx=` group. -/
theorem b64_byte2e (a b : Nat) (hb : b < 256) :
    (a % 4 * 16 + b / 16) % 16 * 16 + b % 16 * 4 / 4 = b := by
  have hm : (a % 4 * 16 + b / 16) % 16 = b / 16 := by
    rw [Nat.mul_comm (a % 4) 16, Nat.mul_add_mod]
    omega
  have hd : b % 16 * 4 / 4 = b % 16 := Nat.mul_div_cancel _ (by norm_num)
  rw [hm, hd]
  omega

/-- Decoding a padded one-byte group inverts the encoder's tail case. -/
theorem decodeQuad_enc1 (a : Nat) (ha : a < 256) :
    decodeQuad (b64Char (a / 4)) (b64Char (a % 4 * 16)) '=' '=' = some [a] := by
  have h1 : a / 4 < 64 := by omega
  have h2 : a % 4 * 16 < 64 := by omega
  unfold decodeQuad
  rw [b64Index_b64Char _ h1, b64Index_b64Char _ h2]
  simp only [if_pos rfl]
  rw [b64_byte1e a]
  simp

/-- Decoding a padded two-byte group inverts the encoder's tail case. -/
theorem decodeQuad_enc2 (a b : Nat) (ha : a < 256) (hb : b < 256) :
    decodeQuad (b64Char (a / 4)) (b64Char (a % 4 * 16 + b / 16)) (b64Char (b % 16 * 4)) '=' =
      some [a, b] := by
  have h1 : a / 4 < 64 := by omega
  have h2 : a % 4 * 16 + b / 16 < 64 := by omega
  have h3 : b % 16 * 4 < 64 := by omega
  unfold decodeQuad
  rw [b64Index_b64Char _ h1, b64Index_b64Char _ h2, b64Index_b64Char _ h3]
  simp only [if_neg (b64Char_ne_eqsign _ h3), if_pos rfl]
  rw [b64_byte1 a b hb, b64_byte2e a b hb]
  simp

/-- Decoding a full group inverts the encoder's main case. -/
theorem decodeQuad_enc3 (a b c : Nat) (ha : a < 256) (hb : b < 256) (hc : c < 256) :
    decodeQuad (b64Char (a / 4)) (b64Char (a % 4 * 16 + b / 16))
      (b64Char (b % 16 * 4 + c / 64)) (b64Char (c % 64)) = some [a, b, c] := by
  have h1 : a / 4 < 64 := by omega
  have h2 : a % 4 * 16 + b / 16 < 64 := by omega
  have h3 : b % 16 * 4 + c / 64 < 64 := by omega
  have h4 : c % 64 < 64 := by omega
  unfold decodeQuad
  rw [b64Index_b64Char _ h1, b64Index_b64Char _ h2, b64Index_b64Char _ h3, b64Index_b64Char _ h4]
  simp only [if_neg (b64Char_ne_eqsign _ h3), if_neg (b64Char_ne_eqsign _ h4)]
  rw [b64_byte1 a b hb, b64_byte2 a b c hb hc, b64_byte3 b c hc]

/-- The encoder emits at least one group for a nonempty input. -/
theorem encodeB64_ne_nil : ∀ bs : List Nat, bs ≠ [] → encodeB64 bs ≠ [] := by
  intro bs hne
  match bs with
  | [a] => simp [encodeB64]
  | [a, b] => simp [encodeB64]
  | a :: b :: c :: rest => simp [encodeB64]

/-- The modelled `atob` inverts the base64 encoder on byte sequences. -/
theorem atobChars_encodeB64 : ∀ bs : List Nat, (∀ x ∈ bs, x < 256) →
    atobChars (encodeB64 bs) = some bs := by
  intro bs
  induction bs using encodeB64.induct with
  | case1 => intro hx; rfl
  | case2 a =>
    intro hx
    have ha : a < 256 := hx a (by simp)
    show atobChars [b64Char (a / 4), b64Char (a % 4 * 16), '=', '='] = some [a]
    simp only [atobChars, List.isEmpty_nil, if_pos rfl]
    exact decodeQuad_enc1 a ha
  | case3 a b =>
    intro hx
    have ha : a < 256 := hx a (by simp)
    have hb : b < 256 := hx b (by simp)
    show atobChars
      [b64Char (a / 4), b64Char (a % 4 * 16 + b / 16), b64Char (b % 16 * 4), '='] = some [a, b]
    simp only [atobChars, List.isEmpty_nil, if_pos rfl]
    exact decodeQuad_enc2 a b ha hb
  | case4 a b c rest ih =>
    intro hx
    have ha : a < 256 := hx a (by simp)
    have hb : b < 256 := hx b (by simp)
    have hc : c < 256 := hx c (by simp)
    have hrest : ∀ x ∈ rest, x < 256 := fun x hxm => hx x (by simp [hxm])
    have ihr := ih hrest
    show atobChars (b64Char (a / 4) :: b64Char (a % 4 * 16 + b / 16) ::
      b64Char (b % 16 * 4 + c / 64) :: b64Char (c % 64) :: encodeB64 rest) =
      some (a :: b :: c :: rest)
    rcases hre : rest with _ | ⟨r1, rtail⟩
    · subst hre
      show atobChars [b64Char (a / 4), b64Char (a % 4 * 16 + b / 16),
        b64Char (b % 16 * 4 + c / 64), b64Char (c % 64)] = some [a, b, c]
      simp only [atobChars, List.isEmpty_nil, if_pos rfl]
      exact decodeQuad_enc3 a b c ha hb hc
    · have hne : encodeB64 rest ≠ [] := encodeB64_ne_nil rest (by rw [hre]; simp)
      rw [← hre] at *
      have hemp : (encodeB64 rest).isEmpty = false := by
        cases henc : encodeB64 rest
        · exact absurd henc hne
        · rfl
      have h3 : b % 16 * 4 + c / 64 < 64 := by omega
      have h4 : c % 64 < 64 := by omega
      have hor : ¬(b64Char (b % 16 * 4 + c / 64) = '=' ∨ b64Char (c % 64) = '=') := by
        rintro (hcon | hcon)
        · exact b64Char_ne_eqsign _ h3 hcon
        · exact b64Char_ne_eqsign _ h4 hcon
      simp only [atobChars, hemp, Bool.false_eq_true, if_false, if_neg hor]
      rw [decodeQuad_enc3 a b c ha hb hc, ihr]
      rfl

/-- Re-joining the 1024-element segments reproduces the list. -/
theorem chunkSegments_flatten (n : Nat) (hn : 0 < n) :
    ∀ (fuel : Nat) (l : List α), l.length ≤ fuel → (chunkSegments n fuel l).flatten = l := by
  intro fuel
  induction fuel with
  | zero =>
    intro l hl
    have : l = [] := List.eq_nil_of_length_eq_zero (Nat.le_zero.mp hl)
    subst this
    rfl
  | succ f ih =>
    intro l hl
    cases l with
    | nil => rfl
    | cons x xs =>
      have hl' : xs.length + 1 ≤ f + 1 := by simpa using hl
      show (List.take n (x :: xs) :: chunkSegments n f (List.drop n (x :: xs))).flatten = x :: xs
      rw [List.flatten_cons, ih (List.drop n (x :: xs))
        (by rw [List.length_drop]; simp only [List.length_cons]; omega)]
      exact List.take_append_drop n (x :: xs)

/-- C6: for every byte sequence, encoding to base64 and decoding through the
chunked base64-to-binary conversion (1024-byte segments, concatenated)
reproduces the original bytes exactly. -/
theorem c6_base64_roundtrip (bs : List Nat) (h : ∀ x ∈ bs, x < 256) :
    chunkedAtob (encodeB64 bs) = some bs := by
  simp only [chunkedAtob, atobChars_encodeB64 bs h]
  rw [chunkSegments_flatten 1024 (by norm_num) bs.length bs (Nat.le_refl _)]

/-- C6 witness: the round trip at the chunk-boundary length 1025 and at a
small concrete byte sequence. -/
theorem c6_witness :
    chunkedAtob (encodeB64 (List.replicate 1025 65)) = some (List.replicate 1025 65) ∧
    chunkedAtob (encodeB64 [0, 255, 7]) = some [0, 255, 7] := by
  constructor
  · exact c6_base64_roundtrip _ (fun x hx => by rw [List.eq_of_mem_replicate hx]; decide)
  · exact c6_base64_roundtrip _ (by decide)
